import Mathlib

/-!
Verification of the Vertex HPO metric-reporting adapter used by
`examples/mnist/mnist_vertex_hpo_logger.py`.

The example script wires an `HPOLogger` (the Metric Reporter) onto a
training engine: at each `EPOCH_COMPLETED` event the handlers registered on
the trainer fire in registration order —
`log_training_results` (runs the evaluator on the training loader),
`log_validation_results` (runs the evaluator on the validation loader),
`log_time`, and finally the `HPOLogger` instance constructed with
`metric_tag="nll"`.  The `HPOLogger` reads the named metric out of
`evaluator.state.metrics` and appends one record to the output file at the
fixed path `/tmp/hypertune/output.metrics`, creating the file and its
parent directory on first use.

Metric values are modelled as rationals: the adapter performs no arithmetic
on them, it only passes a value through from the metric mapping to the
appended record, so any value type with decidable equality is faithful.
The filesystem is modelled by the state relevant to the adapter: whether
the parent directory of the output file exists, the output file contents
(absent or a list of records), and whether the environment allows the file
to be created/appended.
-/

/-- One Output Record: the numeric metric value together with the metric
tag, as appended to the output file for the external HPO consumer. -/
structure OutputRecord where
  tag : String
  value : ℚ
  deriving DecidableEq

/-- The Metric Source's current state: `evaluator.state.metrics`, a mapping
from metric name to numeric value, modelled as an association list. -/
abbrev MetricState := List (String × ℚ)

/-- The filesystem state relevant to the adapter: existence of the output
file's parent directory, the output file contents (`none` when the file
does not exist), and whether the environment permits creating/appending
the file. -/
structure FS where
  parentDirExists : Bool
  file : Option (List OutputRecord)
  writable : Bool
  deriving DecidableEq

/-- Dictionary lookup `metrics[tag]`, returning `none` when the key is
absent (a Python `dict` access raising `KeyError`). -/
def lookupMetric (tag : String) : MetricState → Option ℚ
  | [] => none
  | (k, v) :: rest => if k = tag then some v else lookupMetric tag rest

/-- Contents of the output file, the empty list when the file is absent. -/
def fileContents (fs : FS) : List OutputRecord :=
  fs.file.getD []

/-- Number of records in the output file. -/
def fileLen (fs : FS) : ℕ :=
  (fileContents fs).length

/-- The two failure kinds of the Metric Reporter. -/
inductive HPOError where
  | missingMetric
  | writeFailure
  deriving DecidableEq

/-- Modelled from the spec: the body of the `HPOLogger` call
(`ignite.contrib.handlers.hpo_logger`, imported by the example script but
not part of it).  One invocation of the Metric Reporter: read the metric
named `metric_tag` from the Metric Source's current state, then append one
record holding that exact value and the tag to the output file, creating
the file and its parent directory when absent.  A missing tag fails with
`missingMetric` before anything is written; an unwritable environment
fails with `writeFailure`; in both failure cases the filesystem is
returned unchanged and no retry is performed. -/
def hpoLoggerReport (metric_tag : String) (metrics : MetricState) (fs : FS) :
    FS × Option HPOError :=
  match lookupMetric metric_tag metrics with
  | none => (fs, some HPOError.missingMetric)
  | some v =>
    if fs.writable then
      ({ parentDirExists := true,
         file := some (fileContents fs ++ [⟨metric_tag, v⟩]),
         writable := fs.writable }, none)
    else (fs, some HPOError.writeFailure)

/-- A sequence of independent Metric Reporter invocations, one per metric
state in the list, stopping at the first failure (an exception aborts the
training run). -/
def reportSeq (metric_tag : String) (states : List MetricState) (fs : FS) :
    FS × Option HPOError :=
  match states with
  | [] => (fs, none)
  | m :: rest =>
    match hpoLoggerReport metric_tag m fs with
    | (fs', none) => reportSeq metric_tag rest fs'
    | (fs', some e) => (fs', some e)

/-- The in-process state an `EPOCH_COMPLETED` event acts on:
`evaluator.state.metrics` and the filesystem. -/
structure EpochState where
  evalMetrics : MetricState
  fs : FS
  deriving DecidableEq

/-- Modelled from the spec: `evaluator.run(loader)` on the evaluator built
with `val_metrics = {"accuracy": Accuracy(), "nll": Loss(criterion)}`
recomputes `evaluator.state.metrics` as the mapping with exactly those two
keys; the computed numeric values depend on the loader and model and enter
as parameters. -/
def evaluatorRun (acc nll : ℚ) (s : EpochState) : EpochState :=
  { evalMetrics := [("accuracy", acc), ("nll", nll)], fs := s.fs }

/-- Handler registered first on `EPOCH_COMPLETED`: runs the evaluator on
`train_loader` (the progress-bar and printing effects are outside the
model). -/
def log_training_results (trainAcc trainNll : ℚ) (s : EpochState) : EpochState :=
  evaluatorRun trainAcc trainNll s

/-- Handler registered second on `EPOCH_COMPLETED`: runs the evaluator on
`val_loader`, overwriting `evaluator.state.metrics`. -/
def log_validation_results (valAcc valNll : ℚ) (s : EpochState) : EpochState :=
  evaluatorRun valAcc valNll s

/-- Handler registered third on `EPOCH_COMPLETED`: only prints timing
information, touching neither the metrics nor the filesystem. -/
def log_time (s : EpochState) : EpochState := s

/-- Handler registered fourth on `EPOCH_COMPLETED`: the `HPOLogger`
instance constructed with `metric_tag="nll"`, reading
`evaluator.state.metrics` and appending to the output file. -/
def hpoLoggerCall (s : EpochState) : EpochState × Option HPOError :=
  let r := hpoLoggerReport "nll" s.evalMetrics s.fs
  ({ evalMetrics := s.evalMetrics, fs := r.1 }, r.2)

/-- One `EPOCH_COMPLETED` event: the four registered handlers fire in
registration order on the same thread. -/
def epochCompleted (trainAcc trainNll valAcc valNll : ℚ) (s : EpochState) :
    EpochState × Option HPOError :=
  hpoLoggerCall (log_time (log_validation_results valAcc valNll
    (log_training_results trainAcc trainNll s)))

/-- `trainer.run(train_loader, max_epochs=epochs)`: fires `EPOCH_COMPLETED`
once per epoch, sequentially; the per-epoch metric values
`((trainAcc, trainNll), (valAcc, valNll))` are given by the list, whose
length is the number of epochs.  A handler exception aborts the run. -/
def trainerRun (epochVals : List ((ℚ × ℚ) × (ℚ × ℚ))) (s : EpochState) :
    EpochState × Option HPOError :=
  match epochVals with
  | [] => (s, none)
  | v :: rest =>
    match epochCompleted v.1.1 v.1.2 v.2.1 v.2.2 s with
    | (s', none) => trainerRun rest s'
    | (s', some e) => (s', some e)

/-- Looking up the tag in the metric state produced by an evaluator run
always succeeds for the tag the logger was constructed with. -/
theorem lookupMetric_nll (vA vN : ℚ) :
    lookupMetric "nll" [("accuracy", vA), ("nll", vN)] = some vN := by
  simp [lookupMetric]

/-- A successful invocation in full: tag present and environment writable
gives exactly one appended record with the exact source value. -/
theorem hpoLoggerReport_ok (metric_tag : String) (metrics : MetricState)
    (fs : FS) (v : ℚ) (hv : lookupMetric metric_tag metrics = some v)
    (hw : fs.writable = true) :
    hpoLoggerReport metric_tag metrics fs =
      ({ parentDirExists := true,
         file := some (fileContents fs ++ [⟨metric_tag, v⟩]),
         writable := true }, none) := by
  simp [hpoLoggerReport, hv, hw]

/-- C1: when the tag is present in the metric-source state and the
environment is writable, one invocation of the Metric Reporter appends
exactly one record to the output file, whose value field is the exact
source value and whose tag field is the reporter's tag, and reports no
error. -/
theorem hpo_report_appends_exact (metric_tag : String) (metrics : MetricState)
    (fs : FS) (v : ℚ) (hv : lookupMetric metric_tag metrics = some v)
    (hw : fs.writable = true) :
    hpoLoggerReport metric_tag metrics fs =
      ({ parentDirExists := true,
         file := some (fileContents fs ++ [⟨metric_tag, v⟩]),
         writable := true }, none) :=
  hpoLoggerReport_ok metric_tag metrics fs v hv hw

/-- C1 witness: metric-source state `{"accuracy": 0.91, "nll": 0.27}` with
tag `"nll"`: the single appended record has value `0.27` and tag `"nll"`. -/
theorem hpo_report_appends_exact_witness :
    lookupMetric "nll" [("accuracy", (91 : ℚ)/100), ("nll", (27 : ℚ)/100)]
        = some ((27 : ℚ)/100) ∧
    hpoLoggerReport "nll" [("accuracy", (91 : ℚ)/100), ("nll", (27 : ℚ)/100)]
        ⟨true, some [], true⟩ =
      ({ parentDirExists := true,
         file := some [⟨"nll", (27 : ℚ)/100⟩],
         writable := true }, none) :=
  ⟨by simp [lookupMetric],
   hpo_report_appends_exact "nll"
     [("accuracy", (91 : ℚ)/100), ("nll", (27 : ℚ)/100)]
     ⟨true, some [], true⟩ ((27 : ℚ)/100) (by simp [lookupMetric]) rfl⟩

/-- C2: when the tag is absent from the metric-source state, the invocation
fails with the Missing-Metric error and the filesystem is returned exactly
as it was: no record is written, the file is not created when it did not
exist, and no default value is substituted. -/
theorem hpo_report_missing_metric (metric_tag : String) (metrics : MetricState)
    (fs : FS) (h : lookupMetric metric_tag metrics = none) :
    hpoLoggerReport metric_tag metrics fs = (fs, some HPOError.missingMetric) := by
  simp [hpoLoggerReport, h]

/-- C2 witness: metric-source state `{"accuracy": 0.91}` with tag `"nll"`
over a filesystem where neither the directory nor the file exists: the
call fails with Missing-Metric and the file is still not created. -/
theorem hpo_report_missing_metric_witness :
    lookupMetric "nll" [("accuracy", (91 : ℚ)/100)] = none ∧
    hpoLoggerReport "nll" [("accuracy", (91 : ℚ)/100)] ⟨false, none, true⟩ =
      (⟨false, none, true⟩, some HPOError.missingMetric) :=
  ⟨by simp [lookupMetric],
   hpo_report_missing_metric "nll" [("accuracy", (91 : ℚ)/100)]
     ⟨false, none, true⟩ (by simp [lookupMetric])⟩

/-- C3: if the output file's parent directory (and hence the file) does not
exist before the first invocation, the first invocation creates the
directory and the file and appends the first record; every later
invocation on an existing file appends to it without truncating it. -/
theorem hpo_report_lazy_creation (metric_tag : String) (metrics : MetricState)
    (v : ℚ) (hv : lookupMetric metric_tag metrics = some v) :
    (∀ fs : FS, fs.parentDirExists = false → fs.file = none → fs.writable = true →
      hpoLoggerReport metric_tag metrics fs =
        ({ parentDirExists := true, file := some [⟨metric_tag, v⟩],
           writable := true }, none)) ∧
    (∀ fs : FS, ∀ l : List OutputRecord, fs.file = some l → fs.writable = true →
      ((hpoLoggerReport metric_tag metrics fs).1.file = some (l ++ [⟨metric_tag, v⟩]) ∧
       (hpoLoggerReport metric_tag metrics fs).2 = none)) := by
  constructor
  · intro fs h1 h2 h3
    simp [hpoLoggerReport, hv, h3, fileContents, h2]
  · intro fs l hl hw
    constructor <;> simp [hpoLoggerReport, hv, hw, fileContents, hl]

/-- C3 witness: starting from no directory and no file, one call creates
both and the file holds exactly the first record. -/
theorem hpo_report_lazy_creation_witness :
    lookupMetric "nll" [("nll", (27 : ℚ)/100)] = some ((27 : ℚ)/100) ∧
    hpoLoggerReport "nll" [("nll", (27 : ℚ)/100)] ⟨false, none, true⟩ =
      ({ parentDirExists := true, file := some [⟨"nll", (27 : ℚ)/100⟩],
         writable := true }, none) :=
  ⟨by simp [lookupMetric],
   (hpo_report_lazy_creation "nll" [("nll", (27 : ℚ)/100)] ((27 : ℚ)/100)
     (by simp [lookupMetric])).1 ⟨false, none, true⟩ rfl rfl rfl⟩

/-- C4: a sequence of N invocations on metric states that all contain the
tag succeeds and appends exactly N new records, each a complete record
carrying the reporter's tag. -/
theorem reportSeq_adds_N_records (metric_tag : String) (states : List MetricState)
    (fs : FS) (hall : ∀ m ∈ states, (lookupMetric metric_tag m).isSome = true)
    (hw : fs.writable = true) :
    (reportSeq metric_tag states fs).2 = none ∧
    ∃ recs : List OutputRecord,
      fileContents (reportSeq metric_tag states fs).1 = fileContents fs ++ recs ∧
      recs.length = states.length ∧ ∀ r ∈ recs, r.tag = metric_tag := by
  induction states generalizing fs with
  | nil => exact ⟨rfl, [], by simp [reportSeq], rfl, by simp⟩
  | cons m rest ih =>
    obtain ⟨v, hv⟩ := Option.isSome_iff_exists.mp (hall m (List.mem_cons_self m rest))
    have hstep := hpoLoggerReport_ok metric_tag m fs v hv hw
    have hseq : reportSeq metric_tag (m :: rest) fs =
        reportSeq metric_tag rest
          { parentDirExists := true,
            file := some (fileContents fs ++ [⟨metric_tag, v⟩]),
            writable := true } := by
      simp [reportSeq, hstep]
    obtain ⟨herr, recs, hfc, hlen, htags⟩ :=
      ih { parentDirExists := true,
           file := some (fileContents fs ++ [⟨metric_tag, v⟩]),
           writable := true }
        (fun m' hm' => hall m' (List.mem_cons_of_mem m hm')) rfl
    refine ⟨by rw [hseq]; exact herr, ⟨metric_tag, v⟩ :: recs, ?_, ?_, ?_⟩
    · rw [hseq, hfc]
      simp [fileContents]
    · simp [hlen]
    · intro r hr
      rcases List.mem_cons.mp hr with h | h
      · rw [h]
      · exact htags r h

/-- C4 witness: two invocations on states that both contain the tag append
exactly two records. -/
theorem reportSeq_adds_N_records_witness :
    (∀ m ∈ [[(("nll" : String), (1 : ℚ))],
            [(("accuracy" : String), (2 : ℚ)), (("nll" : String), (3 : ℚ))]],
       (lookupMetric "nll" m).isSome = true) ∧
    ((true : Bool) = true) ∧
    ((reportSeq "nll"
        [[(("nll" : String), (1 : ℚ))],
         [(("accuracy" : String), (2 : ℚ)), (("nll" : String), (3 : ℚ))]]
        ⟨false, none, true⟩).2 = none ∧
     ∃ recs : List OutputRecord,
       fileContents (reportSeq "nll"
          [[(("nll" : String), (1 : ℚ))],
           [(("accuracy" : String), (2 : ℚ)), (("nll" : String), (3 : ℚ))]]
          ⟨false, none, true⟩).1 =
         fileContents ⟨false, none, true⟩ ++ recs ∧
       recs.length = 2 ∧ ∀ r ∈ recs, r.tag = "nll") :=
  ⟨by decide, rfl,
   reportSeq_adds_N_records "nll"
     [[(("nll" : String), (1 : ℚ))],
      [(("accuracy" : String), (2 : ℚ)), (("nll" : String), (3 : ℚ))]]
     ⟨false, none, true⟩ (by decide) rfl⟩

/-- C5: when the environment does not permit creating or appending the
output file, the invocation fails with the Write-Failure error and the
filesystem is returned exactly as it was: a single failed write produces
one error with no retry and no silent fallback. -/
theorem hpo_report_write_failure (metric_tag : String) (metrics : MetricState)
    (fs : FS) (v : ℚ) (hv : lookupMetric metric_tag metrics = some v)
    (hw : fs.writable = false) :
    hpoLoggerReport metric_tag metrics fs = (fs, some HPOError.writeFailure) := by
  simp [hpoLoggerReport, hv, hw]

/-- C5 witness: an unwritable environment with the tag present fails with
Write-Failure and leaves the filesystem unchanged. -/
theorem hpo_report_write_failure_witness :
    lookupMetric "nll" [("nll", (27 : ℚ)/100)] = some ((27 : ℚ)/100) ∧
    hpoLoggerReport "nll" [("nll", (27 : ℚ)/100)] ⟨true, some [], false⟩ =
      (⟨true, some [], false⟩, some HPOError.writeFailure) :=
  ⟨by simp [lookupMetric],
   hpo_report_write_failure "nll" [("nll", (27 : ℚ)/100)]
     ⟨true, some [], false⟩ ((27 : ℚ)/100) (by simp [lookupMetric]) rfl⟩

/-- C6: the output file is append-only: for every invocation, whatever the
metric state and the filesystem, the file contents before the call begin
the contents after the call — no record is rewritten, deleted or
truncated. -/
theorem hpo_report_append_only (metric_tag : String) (metrics : MetricState)
    (fs : FS) :
    ∃ t : List OutputRecord,
      fileContents ((hpoLoggerReport metric_tag metrics fs).1) =
        fileContents fs ++ t := by
  cases h : lookupMetric metric_tag metrics with
  | none => exact ⟨[], by simp [hpoLoggerReport, h]⟩
  | some v =>
    by_cases hw : fs.writable = true
    · exact ⟨[⟨metric_tag, v⟩], by simp [hpoLoggerReport, h, hw, fileContents]⟩
    · exact ⟨[], by simp [hpoLoggerReport, h, hw]⟩

/-- C7: the Metric Reporter leaves the Metric Source's state unchanged:
after an invocation the metric mapping is identical to what it was, and
the only component of the world it touches is the filesystem, via the
read-append operation. -/
theorem hpo_call_preserves_source (s : EpochState) :
    ((hpoLoggerCall s).1).evalMetrics = s.evalMetrics ∧
    ((hpoLoggerCall s).1).fs = (hpoLoggerReport "nll" s.evalMetrics s.fs).1 :=
  ⟨rfl, rfl⟩

/-- C8: the Missing-Metric branch is unreachable in the example script: the
`HPOLogger` fires after `log_validation_results` has run the evaluator,
whose metric mapping always contains the key the logger was constructed
with, so an `EPOCH_COMPLETED` event can never report Missing-Metric. -/
theorem missingMetric_unreachable (tA tN vA vN : ℚ) (s : EpochState) :
    (epochCompleted tA tN vA vN s).2 ≠ some HPOError.missingMetric := by
  have h := lookupMetric_nll vA vN
  by_cases hw : s.fs.writable = true
  · simp [epochCompleted, hpoLoggerCall, log_time, log_validation_results,
      log_training_results, evaluatorRun, hpoLoggerReport, h, hw]
  · simp [epochCompleted, hpoLoggerCall, log_time, log_validation_results,
      log_training_results, evaluatorRun, hpoLoggerReport, h, hw]

/-- C9: the record an `EPOCH_COMPLETED` event appends carries the
validation-set nll, the value of the last evaluator run before the
`HPOLogger` fires, and not the training-set nll computed earlier in the
same event. -/
theorem hpo_reports_validation_nll (tA tN vA vN : ℚ) (s : EpochState)
    (hw : s.fs.writable = true) :
    fileContents ((epochCompleted tA tN vA vN s).1.fs) =
      fileContents s.fs ++ [⟨"nll", vN⟩] ∧
    (epochCompleted tA tN vA vN s).2 = none := by
  have h := lookupMetric_nll vA vN
  constructor <;>
    simp [epochCompleted, hpoLoggerCall, log_time, log_validation_results,
      log_training_results, evaluatorRun, hpoLoggerReport, h, hw, fileContents]

/-- C9 witness: with distinct training nll 2 and validation nll 4, the
appended record holds the validation value 4. -/
theorem hpo_reports_validation_nll_witness :
    ((⟨[], ⟨true, some [], true⟩⟩ : EpochState).fs.writable = true) ∧
    (fileContents ((epochCompleted 1 2 3 4 ⟨[], ⟨true, some [], true⟩⟩).1.fs) =
       fileContents (⟨true, some [], true⟩ : FS) ++ [⟨"nll", 4⟩] ∧
     (epochCompleted 1 2 3 4 ⟨[], ⟨true, some [], true⟩⟩).2 = none) :=
  ⟨rfl, hpo_reports_validation_nll 1 2 3 4 ⟨[], ⟨true, some [], true⟩⟩ rfl⟩

/-- An `EPOCH_COMPLETED` event that reports no error grows the output file
by exactly one record. -/
theorem epochCompleted_ok_grows (tA tN vA vN : ℚ) (s : EpochState)
    (h : (epochCompleted tA tN vA vN s).2 = none) :
    fileLen ((epochCompleted tA tN vA vN s).1.fs) = fileLen s.fs + 1 := by
  have hl := lookupMetric_nll vA vN
  by_cases hw : s.fs.writable = true
  · simp [epochCompleted, hpoLoggerCall, log_time, log_validation_results,
      log_training_results, evaluatorRun, hpoLoggerReport, hl, hw,
      fileLen, fileContents]
  · exfalso
    rw [show (epochCompleted tA tN vA vN s).2 = some HPOError.writeFailure by
      simp [epochCompleted, hpoLoggerCall, log_time, log_validation_results,
        log_training_results, evaluatorRun, hpoLoggerReport, hl, hw]] at h
    exact Option.noConfusion h

/-- C10: a training run of N epochs that completes without error invokes
the `HPOLogger` exactly once per epoch, so the output file gains exactly N
new records over the run. -/
theorem trainerRun_record_count (epochVals : List ((ℚ × ℚ) × (ℚ × ℚ)))
    (s : EpochState) (h : (trainerRun epochVals s).2 = none) :
    fileLen ((trainerRun epochVals s).1.fs) = fileLen s.fs + epochVals.length := by
  induction epochVals generalizing s with
  | nil => simp [trainerRun]
  | cons v rest ih =>
    rcases he : epochCompleted v.1.1 v.1.2 v.2.1 v.2.2 s with ⟨s', err⟩
    cases err with
    | some e =>
      exfalso
      rw [show trainerRun (v :: rest) s = (s', some e) by
        simp [trainerRun, he]] at h
      exact Option.noConfusion h
    | none =>
      have hstep : trainerRun (v :: rest) s = trainerRun rest s' := by
        simp [trainerRun, he]
      have hgrow : fileLen s'.fs = fileLen s.fs + 1 := by
        have hg := epochCompleted_ok_grows v.1.1 v.1.2 v.2.1 v.2.2 s (by rw [he])
        rwa [he] at hg
      rw [hstep] at h ⊢
      have hrest := ih s' h
      simp only [List.length_cons]
      omega

/-- C10 witness: a two-epoch run starting from no file completes without
error and leaves exactly two records in the output file. -/
theorem trainerRun_record_count_witness :
    ((trainerRun [((1, 2), (3, 4)), ((5, 6), (7, 8))]
        ⟨[], ⟨false, none, true⟩⟩).2 = none) ∧
    fileLen ((trainerRun [((1, 2), (3, 4)), ((5, 6), (7, 8))]
        ⟨[], ⟨false, none, true⟩⟩).1.fs) =
      fileLen (⟨false, none, true⟩ : FS) + 2 :=
  ⟨by decide,
   trainerRun_record_count [((1, 2), (3, 4)), ((5, 6), (7, 8))]
     ⟨[], ⟨false, none, true⟩⟩ (by decide)⟩
